import Mathlib

/-!
Verification of the real-time chat client core of the azure-chat repository.

The definitions below are shallow embeddings of the message store, the
reconnect logic, the close-code handling, the room-switch logic and the
presence tracker, translated from the TypeScript sources:

- frontend/src/contexts/ChatContext.tsx, which contains two revisions of the
  provider (an earlier one whose onReceiveMessage handler appends without
  sorting, and a later one whose handleReceiveMessage validates, deduplicates
  and re-sorts by timestamp and maintains unread counters);
- frontend/src/services/chatService.ts (earlier ChatService revision: room
  switch by reconnecting, reconnect only on close code 1006, delay
  2000 * 2 ^ (attempts - 1), max 3 attempts);
- the later ChatService revision (reconnect on every close code other than
  1000/1001, code 4001 terminal, delay 3000 * 1.5 ^ attempts, max 5 attempts,
  counter reset to 0 at the start of startConnection);
- the later ChatContext revision with the global presence model
  (handleUserCameOnline / handleUserWentOffline).

JavaScript timestamps (new Date(t).getTime()) are modelled as natural
numbers; JavaScript string-or-undefined fields as Option String; the
stable Array.prototype.sort with comparator (a, b) => ta - tb as a stable
insertion sort by timestamp.
-/

/-- A fully formed chat message as stored in the per-room logs
(the conformedMessage shape built by handleReceiveMessage). -/
structure ChatMessage where
  id : String
  roomId : String
  senderId : String
  senderName : String
  content : String
  timestamp : Nat
deriving Repr, DecidableEq

/-- A raw inbound frame payload before validation: every field may be absent
(undefined in JavaScript). The chatId field is the legacy room key. -/
structure IncomingMessage where
  chatId : Option String
  roomId : Option String
  id : Option String
  senderId : Option String
  senderName : Option String
  content : Option String
  timestamp : Option Nat
deriving Repr, DecidableEq

/-- JavaScript truthiness of a string-or-undefined value: undefined and the
empty string are falsy. -/
def strTruthy : Option String → Bool
  | none => false
  | some s => !(s == "")

/-- JavaScript a || b on string-or-undefined values, as used for
incomingMessage.chatId || incomingMessage.roomId. -/
def jsOrStr (a b : Option String) : Option String :=
  if strTruthy a then a else b

/-- The message-store state of the later ChatContext revision: per-room message
logs (prev[room] || [] reads default to the empty list) and per-room unread
counters (prev[room] || 0 reads default to zero). -/
structure StoreState where
  logs : String → List ChatMessage
  unread : String → Nat

/-- The initial store: no room has messages or unread counts. -/
def emptyStore : StoreState :=
  { logs := fun _ => [], unread := fun _ => 0 }

/-- Insert a message into a list so that list order by timestamp is preserved,
placing the new message after every existing message whose timestamp is not
larger. Together with sortByTs this models the stable
Array.prototype.sort((a, b) => ta - tb) of the source. -/
def insertByTs (m : ChatMessage) : List ChatMessage → List ChatMessage
  | [] => [m]
  | x :: xs => if x.timestamp ≤ m.timestamp then x :: insertByTs m xs else m :: x :: xs

/-- Stable sort by ascending timestamp, modelling
[...existing, message].sort((a, b) => new Date(a.timestamp) - new Date(b.timestamp)).
Only sortedness and the element multiset of the result are used below, and
both agree with the JavaScript stable sort. -/
def sortByTs (l : List ChatMessage) : List ChatMessage :=
  l.foldl (fun acc m => insertByTs m acc) []

/-- The stored-order invariant of the spec: timestamps are non-decreasing
along the log. -/
def sortedByTs (l : List ChatMessage) : Prop :=
  l.Pairwise fun a b => a.timestamp ≤ b.timestamp

/-- The spec invariant that no two stored messages of one room share an id. -/
def idsNodup (l : List ChatMessage) : Prop :=
  (l.map fun m => m.id).Nodup

theorem mem_insertByTs {a m : ChatMessage} {l : List ChatMessage} :
    a ∈ insertByTs m l ↔ a = m ∨ a ∈ l := by
  induction l with
  | nil => simp [insertByTs]
  | cons x xs ih =>
    by_cases hx : x.timestamp ≤ m.timestamp
    · simp [insertByTs, hx, ih]
      tauto
    · simp [insertByTs, hx]

theorem perm_insertByTs (m : ChatMessage) (l : List ChatMessage) :
    List.Perm (insertByTs m l) (m :: l) := by
  induction l with
  | nil => simp [insertByTs]
  | cons x xs ih =>
    by_cases hx : x.timestamp ≤ m.timestamp
    · simp only [insertByTs, if_pos hx]
      exact (ih.cons x).trans (List.Perm.swap m x xs)
    · simp [insertByTs, hx]

theorem pairwise_insertByTs {m : ChatMessage} {l : List ChatMessage}
    (h : sortedByTs l) : sortedByTs (insertByTs m l) := by
  induction l with
  | nil => simp [insertByTs, sortedByTs]
  | cons x xs ih =>
    rw [sortedByTs, List.pairwise_cons] at h
    by_cases hx : x.timestamp ≤ m.timestamp
    · simp only [insertByTs, if_pos hx]
      rw [sortedByTs, List.pairwise_cons]
      refine ⟨?_, ih h.2⟩
      intro b hb
      rcases mem_insertByTs.mp hb with hb | hb
      · exact hb ▸ hx
      · exact h.1 b hb
    · simp only [insertByTs, if_neg hx]
      rw [sortedByTs, List.pairwise_cons]
      push_neg at hx
      refine ⟨?_, ?_⟩
      · intro b hb
        rcases List.mem_cons.mp hb with hb | hb
        · exact hb ▸ hx.le
        · exact hx.le.trans (h.1 b hb)
      · rw [List.pairwise_cons]
        exact ⟨h.1, h.2⟩

theorem sortByTs_go_perm (l acc : List ChatMessage) :
    List.Perm (l.foldl (fun acc m => insertByTs m acc) acc) (l ++ acc) := by
  induction l generalizing acc with
  | nil => simp
  | cons x xs ih =>
    simp only [List.foldl_cons, List.cons_append]
    refine (ih (insertByTs x acc)).trans ?_
    refine (List.Perm.append_left xs (perm_insertByTs x acc)).trans ?_
    exact List.perm_middle

theorem sortByTs_go_sorted (l acc : List ChatMessage) (h : sortedByTs acc) :
    sortedByTs (l.foldl (fun acc m => insertByTs m acc) acc) := by
  induction l generalizing acc with
  | nil => exact h
  | cons x xs ih => exact ih _ (pairwise_insertByTs h)

theorem perm_sortByTs (l : List ChatMessage) : List.Perm (sortByTs l) l := by
  simpa using sortByTs_go_perm l []

theorem sorted_sortByTs (l : List ChatMessage) : sortedByTs (sortByTs l) :=
  sortByTs_go_sorted l [] (by simp [sortedByTs])

/-- The conformedMessage built by handleReceiveMessage once validation has
passed (absent optional fields default as in the JavaScript object). -/
def conformMessage (room : String) (i : IncomingMessage) : ChatMessage :=
  { id := i.id.getD ""
    roomId := room
    senderId := i.senderId.getD ""
    senderName := i.senderName.getD ""
    content := i.content.getD ""
    timestamp := i.timestamp.getD 0 }

/-- The room identifier resolution of handleReceiveMessage:
incomingMessage.chatId || incomingMessage.roomId, read back as a string. -/
def roomOf (i : IncomingMessage) : String :=
  (jsOrStr i.chatId i.roomId).getD ""

/-- Whether an inbound message passes the validation of handleReceiveMessage:
a truthy room identifier and the presence of id, senderId, senderName and
timestamp. -/
def ingestValid (i : IncomingMessage) : Bool :=
  strTruthy (jsOrStr i.chatId i.roomId) &&
    i.id.isSome && i.senderId.isSome && i.senderName.isSome && i.timestamp.isSome

/-- handleReceiveMessage of the later ChatContext revision. Drops the frame
when the room identifier is falsy or a required field is absent; otherwise
conforms the message, drops it from the log when the room already stores a
message with the same id, else appends and re-sorts the room log by
timestamp; independently increments the unread counter of the room when the
room is not the current room or the document is not focused. -/
def ingest (cur : Option String) (hasFocus : Bool) (s : StoreState)
    (i : IncomingMessage) : StoreState :=
  if !strTruthy (jsOrStr i.chatId i.roomId) then s
  else if !(i.id.isSome && i.senderId.isSome && i.senderName.isSome && i.timestamp.isSome) then s
  else
    let room := roomOf i
    let m := conformMessage room i
    let existing := s.logs room
    let logs' : String → List ChatMessage :=
      if existing.any fun x => x.id == m.id then s.logs
      else fun r => if r == room then sortByTs (existing ++ [m]) else s.logs r
    let unread' : String → Nat :=
      if cur ≠ some room ∨ hasFocus = false then
        fun r => if r == room then s.unread r + 1 else s.unread r
      else s.unread
    { logs := logs', unread := unread' }

/-- One ingest event: the current room and focus state at arrival time,
and the inbound frame payload. -/
structure IngestEv where
  cur : Option String
  hasFocus : Bool
  msg : IncomingMessage

/-- A sequence of ingest operations applied to a store. -/
def ingestAll (s : StoreState) (evs : List IngestEv) : StoreState :=
  evs.foldl (fun st e => ingest e.cur e.hasFocus st e.msg) s

/-- The onReceiveMessage handler of the first ChatContext revision
(ChatContext.tsx, first document, lines 116 to 134): the log is keyed by the
chatId field of the message (held in the roomId field of ChatMessage here),
duplicates by id are dropped, and a new message is appended WITHOUT
re-sorting. -/
def onReceiveMessageFirstRev (logs : String → List ChatMessage)
    (m : ChatMessage) : String → List ChatMessage :=
  let roomMessages := logs m.roomId
  if roomMessages.any fun x => x.id == m.id then logs
  else fun r => if r == m.roomId then roomMessages ++ [m] else logs r

/-- loadHistory of the later ChatContext revision, success path: when no fetch
for the room is already in flight, the room log is REPLACED by the fetched
history sorted ascending by timestamp; when a fetch is in flight the call
returns immediately. -/
def loadHistory (s : StoreState) (roomId : String) (history : List ChatMessage)
    (loadingInFlight : Bool) : StoreState :=
  if loadingInFlight then s
  else { s with logs := fun r => if r == roomId then sortByTs history else s.logs r }

/-- markRoomAsRead of the later ChatContext revision: sets the unread counter
of the room to 0. -/
def markRoomAsRead (s : StoreState) (roomId : String) : StoreState :=
  { s with unread := fun r => if r == roomId then 0 else s.unread r }

/-- maxReconnectAttempts of the later ChatService revision. -/
def maxReconnectAttempts : Nat := 5

/-- reconnectDelay of the later ChatService revision, in milliseconds,
as a rational so that Math.pow(1.5, k) is exact. -/
def reconnectDelayMs : ℚ := 3000

/-- scheduleReconnect of the later ChatService revision: gives up (returns
none) when the attempt counter has reached maxReconnectAttempts, otherwise
schedules a timer after reconnectDelay * Math.pow(1.5, reconnectAttempts)
milliseconds and returns that delay. The counter itself is incremented only
when the timer later fires. -/
def scheduleReconnect (reconnectAttempts : Nat) : Option ℚ :=
  if reconnectAttempts ≥ maxReconnectAttempts then none
  else some (reconnectDelayMs * (3 / 2) ^ reconnectAttempts)

/-- The first statement of startConnection in the later ChatService revision:
this.reconnectAttempts = 0. -/
def startConnectionReset (_reconnectAttempts : Nat) : Nat := 0

/-- One consecutive failed reconnect attempt in the later revision: the
pending timer fires (the counter is incremented), startConnection runs and
immediately resets the counter to 0, the attempt fails, and scheduleReconnect
is invoked again on the resulting counter value. -/
def failedReconnectCycle (reconnectAttempts : Nat) : Nat :=
  startConnectionReset (reconnectAttempts + 1)

/-- scheduleReconnect of the earlier chatService.ts revision: increments the
attempt counter, then computes delay = 2000 * Math.pow(2, attempts - 1)
milliseconds. Returns the new counter and the delay. -/
def oldScheduleReconnect (reconnectAttempts : Nat) : Nat × Nat :=
  let attempts := reconnectAttempts + 1
  (attempts, 2000 * 2 ^ (attempts - 1))

/-- maxReconnectAttempts of the earlier chatService.ts revision. -/
def oldMaxReconnectAttempts : Nat := 3

/-- The observable effect of a close event on the connection layer. -/
inductive CloseAction
  | authTeardown
  | reconnect
  | suppress
deriving Repr, DecidableEq

/-- handleClose of the later ChatService revision: close code 4001 tears the
session down (storage cleared, page reloaded) and returns before any
reconnect; otherwise every code other than 1000 and 1001 invokes
scheduleReconnect; codes 1000 and 1001 schedule nothing. -/
def handleCloseNew (code : Nat) : CloseAction :=
  if code == 4001 then .authTeardown
  else if code != 1000 && code != 1001 then .reconnect
  else .suppress

/-- Modelled from the spec: the close-code contract of section 6. Normal
closure (1000) and going away (1001) suppress reconnection; the
authentication-failure code (4001) is terminal and triggers session teardown;
all other codes trigger backoff reconnection. -/
def closeContractSpec (code : Nat) : CloseAction :=
  if code = 1000 ∨ code = 1001 then .suppress
  else if code = 4001 then .authTeardown
  else .reconnect

/-- handleClose of the earlier chatService.ts revision: a reconnect is
scheduled only when the close code is exactly 1006 and the attempt counter is
below the maximum of 3; no other code has any effect (in particular there is
no auth-failure teardown path). Returns whether a reconnect is scheduled. -/
def handleCloseOld (code reconnectAttempts : Nat) : Bool :=
  code == 1006 && decide (reconnectAttempts < oldMaxReconnectAttempts)

/-- Outcome of the startConnection promise of the earlier chatService.ts
revision. -/
inductive ConnectOutcome
  | resolved
  | rejectedFailed
  | rejectedTimeout
deriving Repr, DecidableEq

/-- The first transport-level event seen by a fresh WebSocket. -/
inductive TransportEvent
  | opened
  | errored
deriving Repr, DecidableEq

/-- The startConnection promise of the earlier chatService.ts revision:
resolves when the transport open event fires within the 10000 ms guard
timeout; rejects with a connection-failed error when an error event fires
first; rejects with a connection-timed-out error when neither has occurred
after 10000 ms. The input is the first transport event with its time in
milliseconds, or none when no event ever fires. -/
def startConnectionOutcome (firstEvent : Option (TransportEvent × Nat)) :
    ConnectOutcome :=
  match firstEvent with
  | some (.opened, t) => if t < 10000 then .resolved else .rejectedTimeout
  | some (.errored, t) => if t < 10000 then .rejectedFailed else .rejectedTimeout
  | none => .rejectedTimeout

/-- Outcome of the promise returned by updateCurrentRoom. -/
inductive RoomChangeOutcome
  | resolved
  | rejected (error : String)
deriving Repr, DecidableEq

/-- updateCurrentRoom of the earlier chatService.ts revision (the room-switch
entry point, also exposed as switchRoom and the closest analogue of a
subscribe request): returns immediately when the requested room equals the
current one or a room change is already in progress; otherwise reconnects the
WebSocket to the new room via startConnection, CATCHING any rejection (the
catch block logs and stores the new room id), so the returned promise
resolves on every path. Returns the outcome together with the resulting
current room id. -/
def updateCurrentRoom (currentRoomId roomId : String)
    (roomChangeInProgress : Bool) (firstEvent : Option (TransportEvent × Nat)) :
    RoomChangeOutcome × String :=
  if roomId == currentRoomId then (.resolved, currentRoomId)
  else if roomChangeInProgress then (.resolved, currentRoomId)
  else
    match startConnectionOutcome firstEvent with
    | .resolved => (.resolved, roomId)
    | .rejectedFailed => (.resolved, roomId)
    | .rejectedTimeout => (.resolved, roomId)

/-- The inbound frame types dispatched by handleMessage of the earlier
chatService.ts revision; any other type field is ignored. -/
def oldHandledMessageTypes : List String :=
  ["message", "user_joined", "user_left"]

/-- A presence entry of the later ChatContext revision (global presence
model). -/
structure User where
  id : String
  username : String
deriving Repr, DecidableEq

/-- A user presence event as delivered by the later ChatService revision. -/
structure PresenceEvent where
  roomId : String
  userId : String
  username : String
deriving Repr, DecidableEq

/-- handleUserCameOnline of the later ChatContext revision: appends
the user to the active-users list unless an entry with the same id is
already present. -/
def handleUserCameOnline (activeUsers : List User) (e : PresenceEvent) :
    List User :=
  if activeUsers.any fun u => u.id == e.userId then activeUsers
  else activeUsers ++ [{ id := e.userId, username := e.username }]

/-- handleUserWentOffline of the later ChatContext revision: removes every
entry whose id equals the event user id. -/
def handleUserWentOffline (activeUsers : List User) (e : PresenceEvent) :
    List User :=
  activeUsers.filter fun u => !(u.id == e.userId)

/-- A presence event stream element. -/
inductive PresenceStep
  | online (e : PresenceEvent)
  | offline (e : PresenceEvent)
deriving Repr, DecidableEq

/-- Apply one presence event to the active-users list. -/
def presenceStep (s : List User) : PresenceStep → List User
  | .online e => handleUserCameOnline s e
  | .offline e => handleUserWentOffline s e

/-- Run a sequence of presence events from the initial empty list. -/
def runPresence (steps : List PresenceStep) : List User :=
  steps.foldl presenceStep []

theorem ingest_eq_of_invalid (cur : Option String) (foc : Bool) (s : StoreState)
    (i : IncomingMessage) (h : ingestValid i = false) : ingest cur foc s i = s := by
  unfold ingestValid at h
  unfold ingest
  by_cases h1 : strTruthy (jsOrStr i.chatId i.roomId) = true
  · simp only [h1, Bool.true_and] at h
    simp [h1, h]
  · have h1' : strTruthy (jsOrStr i.chatId i.roomId) = false := by
      simpa using h1
    simp [h1']

theorem ingest_logs_cases (cur : Option String) (foc : Bool) (s : StoreState)
    (i : IncomingMessage) (R : String) :
    (ingest cur foc s i).logs R = s.logs R ∨
    (R = roomOf i ∧
      (∀ x ∈ s.logs R, x.id ≠ (conformMessage R i).id) ∧
      (ingest cur foc s i).logs R = sortByTs (s.logs R ++ [conformMessage R i])) := by
  unfold ingest
  by_cases h1 : strTruthy (jsOrStr i.chatId i.roomId) = true
  · by_cases h2 : (i.id.isSome && i.senderId.isSome && i.senderName.isSome
        && i.timestamp.isSome) = true
    · by_cases h3 : ∃ x ∈ s.logs (roomOf i), x.id = (conformMessage (roomOf i) i).id
      · left
        simp [h1, h2, h3]
      · by_cases h4 : R = roomOf i
        · subst h4
          right
          refine ⟨rfl, ?_, ?_⟩
          · intro x hx
            exact fun hid => h3 ⟨x, hx, hid⟩
          · simp [h1, h2, h3]
        · left
          simp [h1, h2, h3, h4]
    · left
      have h2' : (i.id.isSome && i.senderId.isSome && i.senderName.isSome
          && i.timestamp.isSome) = false := by simpa using h2
      simp [h1, h2']
  · left
    have h1' : strTruthy (jsOrStr i.chatId i.roomId) = false := by simpa using h1
    simp [h1']

theorem ingest_preserves_idsNodup {s : StoreState}
    (h : ∀ R, idsNodup (s.logs R)) (cur : Option String) (foc : Bool)
    (i : IncomingMessage) : ∀ R, idsNodup ((ingest cur foc s i).logs R) := by
  intro R
  rcases ingest_logs_cases cur foc s i R with hc | ⟨_, hdup, hc⟩
  · rw [hc]; exact h R
  · rw [hc, idsNodup]
    have hperm := (perm_sortByTs (s.logs R ++ [conformMessage R i])).map
      fun m => m.id
    rw [List.Perm.nodup_iff hperm]
    have hnotin : (conformMessage R i).id ∉ (s.logs R).map fun m => m.id := by
      intro hmem
      rcases List.mem_map.mp hmem with ⟨x, hx, hxid⟩
      exact hdup x hx hxid
    have hR := h R
    rw [idsNodup] at hR
    simp only [List.map_append, List.map_cons, List.map_nil]
    rw [List.nodup_append]
    refine ⟨hR, List.nodup_singleton _, ?_⟩
    intro a ha hb
    rcases List.mem_singleton.mp hb with rfl
    exact hnotin ha

theorem ingest_preserves_sorted {s : StoreState}
    (h : ∀ R, sortedByTs (s.logs R)) (cur : Option String) (foc : Bool)
    (i : IncomingMessage) : ∀ R, sortedByTs ((ingest cur foc s i).logs R) := by
  intro R
  rcases ingest_logs_cases cur foc s i R with hc | ⟨_, _, hc⟩
  · rw [hc]; exact h R
  · rw [hc]; exact sorted_sortByTs _

theorem ingestAll_preserves_idsNodup {s : StoreState}
    (h : ∀ R, idsNodup (s.logs R)) (evs : List IngestEv) :
    ∀ R, idsNodup ((ingestAll s evs).logs R) := by
  induction evs generalizing s with
  | nil => exact h
  | cons e evs ih =>
    exact ih (ingest_preserves_idsNodup h e.cur e.hasFocus e.msg)

theorem ingestAll_preserves_sorted {s : StoreState}
    (h : ∀ R, sortedByTs (s.logs R)) (evs : List IngestEv) :
    ∀ R, sortedByTs ((ingestAll s evs).logs R) := by
  induction evs generalizing s with
  | nil => exact h
  | cons e evs ih =>
    exact ih (ingest_preserves_sorted h e.cur e.hasFocus e.msg)

/-- C1: for every room R and every sequence of ingest operations, no two
messages stored in the log of R share an id, and ingesting a message whose id
equals the id of a message already stored in the log of its room leaves every
room log unchanged (idempotent ingestion). -/
theorem ingest_nodup_ids_and_duplicate_noop :
    (∀ (evs : List IngestEv) (R : String),
      idsNodup ((ingestAll emptyStore evs).logs R)) ∧
    (∀ (cur : Option String) (foc : Bool) (s : StoreState) (i : IncomingMessage),
      ((s.logs (roomOf i)).any fun x => x.id == (conformMessage (roomOf i) i).id) = true →
      (ingest cur foc s i).logs = s.logs) := by
  constructor
  · intro evs R
    exact ingestAll_preserves_idsNodup (fun _ => by simp [emptyStore, idsNodup]) evs R
  · intro cur foc s i hdup
    by_cases hv : ingestValid i = true
    · have h1 : strTruthy (jsOrStr i.chatId i.roomId) = true := by
        by_contra hh
        have hh' : strTruthy (jsOrStr i.chatId i.roomId) = false := by simpa using hh
        have : ingestValid i = false := by
          unfold ingestValid
          simp [hh']
        simp [this] at hv
      have h2 : (i.id.isSome && i.senderId.isSome && i.senderName.isSome
          && i.timestamp.isSome) = true := by
        unfold ingestValid at hv
        simpa [h1] using hv
      have h3 : ∃ x ∈ s.logs (roomOf i), x.id = (conformMessage (roomOf i) i).id := by
        rcases List.any_eq_true.mp hdup with ⟨x, hx, hxe⟩
        exact ⟨x, hx, by simpa using hxe⟩
      unfold ingest
      simp [h1, h2, h3]
    · rw [ingest_eq_of_invalid cur foc s i (by simpa using hv)]

/-- C1 witness: a concrete duplicate ingest. The message m1 is ingested twice
into room general; the resulting log has pairwise distinct ids and the second
ingest leaves the logs unchanged. -/
def c1msg : IncomingMessage :=
  { chatId := some "general", roomId := none, id := some "m1", senderId := some "alice",
    senderName := some "alice", content := some "hi", timestamp := some 5 }

theorem ingest_nodup_ids_and_duplicate_noop_witness :
    idsNodup ((ingestAll emptyStore
      [⟨some "general", true, c1msg⟩, ⟨some "general", true, c1msg⟩]).logs "general") ∧
    (ingest (some "general") true (ingest (some "general") true emptyStore c1msg)
      c1msg).logs = (ingest (some "general") true emptyStore c1msg).logs :=
  ⟨ingest_nodup_ids_and_duplicate_noop.1 _ "general",
   ingest_nodup_ids_and_duplicate_noop.2 (some "general") true _ c1msg (by decide)⟩

/-- C2 (amended): for the later-revision handleReceiveMessage, which re-sorts
the room log on every insertion, the stored log of every room is sorted
non-decreasing by timestamp after any sequence of ingests, regardless of
arrival order. -/
theorem ingest_log_timestamp_sorted :
    ∀ (evs : List IngestEv) (R : String),
      sortedByTs ((ingestAll emptyStore evs).logs R) :=
  fun evs R =>
    ingestAll_preserves_sorted (fun _ => by simp [emptyStore, sortedByTs]) evs R

def c2late : ChatMessage :=
  { id := "m-late", roomId := "general", senderId := "alice", senderName := "alice",
    content := "second", timestamp := 20 }

def c2early : ChatMessage :=
  { id := "m-early", roomId := "general", senderId := "bob", senderName := "bob",
    content := "first", timestamp := 10 }

/-- C2 counterexample: the first-revision onReceiveMessage handler appends
without sorting, so ingesting a message with timestamp 20 and then one with
timestamp 10 leaves the room log in arrival order [20, 10], which is not
non-decreasing in timestamp. -/
theorem firstRev_ingest_breaks_timestamp_order :
    ¬ sortedByTs (onReceiveMessageFirstRev
      (onReceiveMessageFirstRev (fun _ => []) c2late) c2early "general") := by
  have hl : onReceiveMessageFirstRev (onReceiveMessageFirstRev (fun _ => []) c2late)
      c2early "general" = [c2late, c2early] := by decide
  rw [hl]
  intro h
  rw [sortedByTs, List.pairwise_cons] at h
  have := h.1 c2early (by simp)
  simp [c2late, c2early] at this

def c3liveIncoming : IncomingMessage :=
  { chatId := none, roomId := some "general", id := some "live-1", senderId := some "bob",
    senderName := some "bob", content := some "hello", timestamp := some 50 }

/-- C3 counterexample: a message delivered by live push is stored in room
general; loadHistory for that room then completes with an empty backend
history, and the live-pushed message is gone from the log, so the fetch does
remove messages already present from live push. -/
theorem loadHistory_drops_live_message :
    (ingest (some "general") true emptyStore c3liveIncoming).logs "general" =
      [conformMessage "general" c3liveIncoming] ∧
    (loadHistory (ingest (some "general") true emptyStore c3liveIncoming)
      "general" [] false).logs "general" = [] := by
  constructor <;> decide

/-- C3 (amended): loadHistory with no fetch in flight REPLACES the room log
with the fetched history sorted ascending by timestamp (a permutation of the
fetched history), leaves every other room log and all unread counters
unchanged, and is a no-op while a fetch for the room is already in flight.
Messages only present from live push are not retained. -/
theorem loadHistory_replaces_log_sorted :
    ∀ (s : StoreState) (roomId : String) (history : List ChatMessage),
      loadHistory s roomId history true = s ∧
      (loadHistory s roomId history false).logs roomId = sortByTs history ∧
      sortedByTs ((loadHistory s roomId history false).logs roomId) ∧
      List.Perm ((loadHistory s roomId history false).logs roomId) history ∧
      (∀ r, r ≠ roomId → (loadHistory s roomId history false).logs r = s.logs r) ∧
      (loadHistory s roomId history false).unread = s.unread := by
  intro s roomId history
  have hmain : (loadHistory s roomId history false).logs roomId = sortByTs history := by
    simp [loadHistory]
  refine ⟨rfl, hmain, ?_, ?_, ?_, rfl⟩
  · rw [hmain]; exact sorted_sortByTs history
  · rw [hmain]; exact perm_sortByTs history
  · intro r hr
    simp [loadHistory]
    exact fun h => absurd h hr

theorem loadHistory_replaces_log_sorted_witness :
    (loadHistory emptyStore "general" [conformMessage "general" c3liveIncoming]
      false).logs "lobby" = emptyStore.logs "lobby" ∧
    (loadHistory emptyStore "general" [conformMessage "general" c3liveIncoming]
      false).logs "general" = sortByTs [conformMessage "general" c3liveIncoming] :=
  ⟨(loadHistory_replaces_log_sorted emptyStore "general" _).2.2.2.2.1 "lobby" (by decide),
   (loadHistory_replaces_log_sorted emptyStore "general" _).2.1⟩

theorem failedReconnectCycle_iterate_zero (n : Nat) :
    failedReconnectCycle^[n] 0 = 0 := by
  induction n with
  | zero => rfl
  | succ n ih => rw [Function.iterate_succ_apply', ih]; rfl

/-- C4 counterexample: in the later ChatService revision, scheduling a
reconnect while the attempt counter records one prior attempt (attempt
number 2) yields a delay of 3000 * 1.5 = 4500 ms, not
baseDelay * 2 ^ (2 - 1) = 6000 ms as the claim states. -/
theorem reconnect_delay_not_base2_at_attempt2 :
    scheduleReconnect 1 = some 4500 ∧
    scheduleReconnect 1 ≠ some (reconnectDelayMs * 2 ^ (2 - 1)) := by
  constructor
  · norm_num [scheduleReconnect, reconnectDelayMs, maxReconnectAttempts]
  · norm_num [scheduleReconnect, reconnectDelayMs, maxReconnectAttempts]

/-- C4 (amended): the delay computed when scheduling with attempt counter k is
2000 * 2 ^ k ms in the earlier chatService.ts revision (matching
baseDelay * 2 ^ (n - 1) for attempt n = k + 1) but
3000 * 1.5 ^ k ms in the later revision; moreover, because startConnection
resets the counter to 0 before each attempt, in an actual run of consecutive
failed attempts the later revision schedules every attempt at the constant
base delay of 3000 ms. -/
theorem reconnect_delay_formulas :
    (∀ k, (oldScheduleReconnect k).2 = 2000 * 2 ^ k) ∧
    (∀ k, k < maxReconnectAttempts →
      scheduleReconnect k = some (reconnectDelayMs * (3 / 2) ^ k)) ∧
    (∀ n, scheduleReconnect (failedReconnectCycle^[n] 0) = some reconnectDelayMs) := by
  refine ⟨?_, ?_, ?_⟩
  · intro k
    simp [oldScheduleReconnect]
  · intro k hk
    rw [scheduleReconnect, if_neg (by omega)]
  · intro n
    rw [failedReconnectCycle_iterate_zero n]
    norm_num [scheduleReconnect, maxReconnectAttempts]

theorem reconnect_delay_formulas_witness :
    (oldScheduleReconnect 2).2 = 2000 * 2 ^ 2 ∧
    scheduleReconnect 2 = some (reconnectDelayMs * (3 / 2) ^ 2) ∧
    scheduleReconnect (failedReconnectCycle^[6] 0) = some reconnectDelayMs :=
  ⟨reconnect_delay_formulas.1 2,
   reconnect_delay_formulas.2.1 2 (by decide),
   reconnect_delay_formulas.2.2 6⟩

/-- C5 (code bug): the retry cap of the later ChatService revision is never
reached. Every failed reconnect cycle leaves the attempt counter at 0,
because startConnection resets it before the attempt outcome is known, so
scheduleReconnect never takes its give-up branch: after any number n of
consecutive failed attempts (including n at or beyond maxReconnectAttempts
= 5) a further reconnect attempt is still scheduled, contradicting the claim
that no attempt is scheduled once 5 consecutive attempts have failed. -/
theorem reconnect_cap_never_reached :
    ∀ n, failedReconnectCycle^[n] 0 = 0 ∧
      scheduleReconnect (failedReconnectCycle^[n] 0) ≠ none := by
  intro n
  refine ⟨failedReconnectCycle_iterate_zero n, ?_⟩
  rw [failedReconnectCycle_iterate_zero n, scheduleReconnect,
    if_neg (by norm_num [maxReconnectAttempts])]
  simp

/-- C6 counterexample: in the earlier chatService.ts revision a close event
with code 1002 — neither normal closure (1000), going away (1001), nor the
auth-failure code (4001) — schedules no reconnect even with the attempt
counter at 0, while the close-code contract of the claim demands a backoff
reconnect for it. -/
theorem old_handleClose_no_reconnect_on_1002 :
    handleCloseOld 1002 0 = false ∧ closeContractSpec 1002 = CloseAction.reconnect := by
  constructor <;> decide

/-- C6 (amended): the later-revision handleClose satisfies the close-code
contract exactly (1000 and 1001 suppress reconnection, 4001 is terminal and
tears the session down, every other code triggers a backoff reconnect), while
the earlier revision schedules a reconnect only for close code 1006 with the
attempt counter below 3, and has no auth-teardown path at all. -/
theorem handleClose_contract_by_revision :
    (∀ code, handleCloseNew code = closeContractSpec code) ∧
    (∀ code attempts, handleCloseOld code attempts = true ↔
      (code = 1006 ∧ attempts < oldMaxReconnectAttempts)) := by
  constructor
  · intro code
    by_cases h1 : code = 4001
    · simp [handleCloseNew, closeContractSpec, h1]
    · by_cases h2 : code = 1000
      · simp [handleCloseNew, closeContractSpec, h1, h2]
      · by_cases h3 : code = 1001
        · simp [handleCloseNew, closeContractSpec, h1, h2, h3]
        · simp [handleCloseNew, closeContractSpec, h1, h2, h3]
  · intro code attempts
    simp [handleCloseOld]

/-- C9 counterexample: room switch from general to dev with no transport
event at all, hence certainly no subscription acknowledgment within 5
seconds; the claim demands a SubscriptionTimeout rejection, but the promise
resolves (the connection timeout is swallowed by the catch block), and no
subscription_ack frame type is even dispatched by the message handler. -/
theorem updateCurrentRoom_resolves_without_ack :
    (updateCurrentRoom "general" "dev" false none).1 = RoomChangeOutcome.resolved ∧
    "subscription_ack" ∉ oldHandledMessageTypes := by
  constructor
  · rfl
  · decide

/-- C9 (amended): updateCurrentRoom (the room-switch/subscribe entry point of
the earlier chatService.ts revision) never rejects: it resolves on every
path — same room, change in progress, successful reconnect, transport error
and the 10-second connection timeout alike, the latter two being caught and
logged. The underlying startConnection promise resolves exactly when the
transport open event fires within 10000 ms (not a 5-second ack deadline), and
no subscription_ack frame type exists in the handled message vocabulary, so
no SubscriptionTimeout or SubscriptionDenied rejection is possible. -/
theorem updateCurrentRoom_always_resolves :
    (∀ (cur room : String) (prog : Bool) (ev : Option (TransportEvent × Nat)),
      (updateCurrentRoom cur room prog ev).1 = RoomChangeOutcome.resolved) ∧
    "subscription_ack" ∉ oldHandledMessageTypes ∧
    (∀ t, startConnectionOutcome (some (TransportEvent.opened, t)) =
      ConnectOutcome.resolved ↔ t < 10000) := by
  refine ⟨?_, by decide, ?_⟩
  · intro cur room prog ev
    unfold updateCurrentRoom
    split
    · rfl
    · split
      · rfl
      · cases startConnectionOutcome ev <;> rfl
  · intro t
    by_cases ht : t < 10000
    · simp [startConnectionOutcome, ht]
    · simp [startConnectionOutcome, ht]

/-- C7: for a message passing validation, the unread counter of its room is
incremented by exactly 1 when the room is not the current room or the client
is not focused; it is left unchanged (all counters are) when the room is
current and the client is focused; and markRoomAsRead resets the counter of a
room to 0. -/
theorem unread_increment_and_markRead :
    (∀ (cur : Option String) (foc : Bool) (s : StoreState) (i : IncomingMessage),
      ingestValid i = true → (cur ≠ some (roomOf i) ∨ foc = false) →
      (ingest cur foc s i).unread (roomOf i) = s.unread (roomOf i) + 1) ∧
    (∀ (s : StoreState) (i : IncomingMessage), ingestValid i = true →
      (ingest (some (roomOf i)) true s i).unread = s.unread) ∧
    (∀ (s : StoreState) (R : String), (markRoomAsRead s R).unread R = 0) := by
  have valid_split : ∀ i : IncomingMessage, ingestValid i = true →
      strTruthy (jsOrStr i.chatId i.roomId) = true ∧
      (i.id.isSome && i.senderId.isSome && i.senderName.isSome
        && i.timestamp.isSome) = true := by
    intro i hv
    unfold ingestValid at hv
    simp only [Bool.and_eq_true] at hv
    obtain ⟨⟨⟨⟨h1, hb⟩, hc⟩, hd⟩, he⟩ := hv
    exact ⟨h1, by simp [hb, hc, hd, he]⟩
  refine ⟨?_, ?_, ?_⟩
  · intro cur foc s i hv hc
    rcases valid_split i hv with ⟨h1, h2⟩
    unfold ingest
    simp only [h1, h2, Bool.not_true, Bool.false_eq_true, if_false]
    rw [if_pos hc]
    simp
  · intro s i hv
    rcases valid_split i hv with ⟨h1, h2⟩
    unfold ingest
    simp only [h1, h2, Bool.not_true, Bool.false_eq_true, if_false]
    rw [if_neg (by simp)]
  · intro s R
    simp [markRoomAsRead]

def c7msg : IncomingMessage :=
  { chatId := none, roomId := some "random", id := some "m7", senderId := some "carol",
    senderName := some "carol", content := some "ping", timestamp := some 9 }

theorem unread_increment_and_markRead_witness :
    (ingest (some "general") true emptyStore c7msg).unread (roomOf c7msg) =
      emptyStore.unread (roomOf c7msg) + 1 ∧
    (ingest (some (roomOf c7msg)) true emptyStore c7msg).unread = emptyStore.unread ∧
    (markRoomAsRead emptyStore "random").unread "random" = 0 :=
  ⟨unread_increment_and_markRead.1 (some "general") true emptyStore c7msg (by decide)
    (Or.inl (by decide)),
   unread_increment_and_markRead.2.1 emptyStore c7msg (by decide),
   unread_increment_and_markRead.2.2 emptyStore "random"⟩

theorem presenceStep_nodup {s : List User}
    (h : (s.map fun u => u.id).Nodup) (st : PresenceStep) :
    ((presenceStep s st).map fun u => u.id).Nodup := by
  cases st with
  | online e =>
    simp only [presenceStep, handleUserCameOnline]
    by_cases hp : (s.any fun u => u.id == e.userId) = true
    · rw [if_pos hp]; exact h
    · have hp' : (s.any fun u => u.id == e.userId) = false := by simpa using hp
      rw [if_neg (by simp [hp'])]
      simp only [List.map_append, List.map_cons, List.map_nil]
      rw [List.nodup_append]
      refine ⟨h, List.nodup_singleton _, ?_⟩
      intro a ha hb
      rcases List.mem_singleton.mp hb with rfl
      rcases List.mem_map.mp ha with ⟨u, hu, hid⟩
      have := List.any_eq_false.mp hp' u hu
      simp [hid] at this
  | offline e =>
    simp only [presenceStep, handleUserWentOffline]
    have hsub : ((s.filter fun u => !(u.id == e.userId)).map fun u => u.id).Sublist
        (s.map fun u => u.id) :=
      (List.filter_sublist s).map _
    exact List.Nodup.sublist hsub h

theorem runPresence_go_nodup (steps : List PresenceStep) :
    ∀ s : List User, (s.map fun u => u.id).Nodup →
      ((steps.foldl presenceStep s).map fun u => u.id).Nodup := by
  induction steps with
  | nil => intro s h; exact h
  | cons st steps ih => intro s h; exact ih _ (presenceStep_nodup h st)

/-- C8: presence has set semantics keyed by userId: a join event for a user
already present leaves the list unchanged, a leave event for an absent user
leaves the list unchanged, and after any sequence of join/leave events the
presence view never holds two entries with the same userId. -/
theorem presence_set_semantics :
    (∀ (s : List User) (e : PresenceEvent),
      (s.any fun u => u.id == e.userId) = true → handleUserCameOnline s e = s) ∧
    (∀ (s : List User) (e : PresenceEvent),
      (s.any fun u => u.id == e.userId) = false → handleUserWentOffline s e = s) ∧
    (∀ steps : List PresenceStep, ((runPresence steps).map fun u => u.id).Nodup) := by
  refine ⟨?_, ?_, ?_⟩
  · intro s e hp
    simp [handleUserCameOnline, hp]
  · intro s e hp
    unfold handleUserWentOffline
    apply List.filter_eq_self.mpr
    intro u hu
    have := List.any_eq_false.mp hp u hu
    simpa using this
  · intro steps
    exact runPresence_go_nodup steps [] (by simp)

def c8alice : PresenceEvent :=
  { roomId := "global", userId := "u-alice", username := "alice" }

def c8bob : PresenceEvent :=
  { roomId := "global", userId := "u-bob", username := "bob" }

theorem presence_set_semantics_witness :
    handleUserCameOnline [{ id := "u-alice", username := "alice" }] c8alice =
      [{ id := "u-alice", username := "alice" }] ∧
    handleUserWentOffline [{ id := "u-alice", username := "alice" }] c8bob =
      [{ id := "u-alice", username := "alice" }] ∧
    ((runPresence [PresenceStep.online c8alice, PresenceStep.online c8alice,
      PresenceStep.offline c8bob]).map fun u => u.id).Nodup :=
  ⟨presence_set_semantics.1 _ c8alice (by decide),
   presence_set_semantics.2.1 _ c8bob (by decide),
   presence_set_semantics.2.2 _⟩

/-- C10: the public ingest interface drops, with the entire store left
unchanged (no room log and no unread counter modified), every inbound
message whose room identifier is falsy and also every inbound message missing
an id, senderId, senderName or timestamp field. -/
theorem ingest_validation_drops_malformed :
    ∀ (cur : Option String) (foc : Bool) (s : StoreState) (i : IncomingMessage),
      (strTruthy (jsOrStr i.chatId i.roomId) = false ∨ i.id = none ∨ i.senderId = none ∨
        i.senderName = none ∨ i.timestamp = none) →
      ingest cur foc s i = s := by
  intro cur foc s i h
  apply ingest_eq_of_invalid
  unfold ingestValid
  rcases h with h | h | h | h | h <;> simp [h]

def c10bad : IncomingMessage :=
  { chatId := some "general", roomId := none, id := some "mX", senderId := some "dave",
    senderName := some "dave", content := some "no time", timestamp := none }

theorem ingest_validation_drops_malformed_witness :
    ingest (some "general") true emptyStore c10bad = emptyStore :=
  ingest_validation_drops_malformed (some "general") true emptyStore c10bad
    (Or.inr (Or.inr (Or.inr (Or.inr rfl))))
